import Mathlib

/-!
Verification development for the docuvoice audio playback engine.

The definitions below are a shallow embedding of the repository's code:

* the PCM decode service `decodeAudioData` (the unnamed service module),
  which turns raw little-endian signed 16-bit PCM bytes into a mono
  buffer of normalized rational samples;
* the `AudioPlayer` component's playback logic (`playAudio`, `pauseAudio`,
  `stopAudio`, `resetAudio`, `updateProgress`, the `onended` handler and
  `handleSpeedChange`), modelled as explicit state passing over a
  `PlayerState` record that mirrors the component's refs and state hooks.

Device-clock instants and sample values are rationals; JavaScript `NaN`
outcomes are modelled by `Option`, and a rejected promise or thrown
platform exception by `Except`.
-/

namespace DocuVoice

/-! ## PCM decode service

Embeds `decodeAudioData` from the service module.  The base64 `atob`
step is the platform's byte-for-byte decode, so the model takes the
decoded byte sequence (`List (Fin 256)`, one entry per `charCodeAt`
value) directly.
-/

/-- Reinterpret two bytes (little endian: low byte first) as a signed
16-bit integer, as the platform `Int16Array` view does. -/
def toInt16 (lo hi : Fin 256) : ℤ :=
  let u : ℕ := lo.val + 256 * hi.val
  if u < 32768 then (u : ℤ) else (u : ℤ) - 65536

/-- The signed 16-bit values read off a byte sequence two bytes at a
time, as `new Int16Array(bytes.buffer)` exposes them.  A trailing odd
byte never occurs: the view constructor rejects odd lengths first. -/
def int16Values : List (Fin 256) → List ℤ
  | lo :: hi :: rest => toInt16 lo hi :: int16Values rest
  | _ => []

/-- The decoded audio asset: `ctx.createBuffer(numChannels, frameCount,
sampleRate)` filled with `dataInt16[i] / 32768.0`. -/
structure AudioSampleBuffer where
  numChannels : ℕ
  sampleRate : ℕ
  samples : List ℚ
  deriving Repr, DecidableEq

/-- Failures of the decode step: constructing an `Int16Array` view over
a buffer whose byte length is not a multiple of 2 throws a `RangeError`,
and `ctx.createBuffer(numChannels, frameCount, sampleRate)` throws a
`NotSupportedError` when `frameCount` is `0`. -/
inductive DecodeErr where
  | rangeError
  | notSupportedError
  deriving Repr, DecidableEq

/-- Embeds `decodeAudioData(base64Data, ctx, sampleRate)`: view the bytes
as little-endian signed 16-bit values (the `Int16Array` constructor
throws on an odd byte length), take `frameCount = dataInt16.length`
(mono), allocate the buffer with `ctx.createBuffer` (which throws on a
zero frame count), and normalize each value by dividing by 32768.0. -/
def decodeAudioData (bytes : List (Fin 256)) (sampleRate : ℕ) :
    Except DecodeErr AudioSampleBuffer :=
  if bytes.length % 2 = 1 then .error .rangeError
  else if bytes.length / 2 = 0 then .error .notSupportedError
  else .ok { numChannels := 1
             sampleRate := sampleRate
             samples := (int16Values bytes).map (fun v : ℤ => (v : ℚ) / 32768) }

/-! ## AudioPlayer state -/

/-- One `AudioBufferSourceNode` created by `playAudio`: its buffer's
duration, the current `playbackRate.value`, the offset passed to
`start`, the `playbackSpeed` captured by its `onended` closure, and
whether `stop()` has been called on it. -/
structure NodeRec where
  id : ℕ
  bufDuration : ℚ
  rate : ℚ
  startOffset : ℚ
  capturedSpeed : ℚ
  stopped : Bool
  deriving Repr, DecidableEq

/-- The component's state hooks and refs: `isPlaying`, `playbackSpeed`,
`progress`, `sourceNodeRef` (by node id), `startTimeRef`, `pauseTimeRef`.
`nodes` records every source node created so far so that node liveness
can be observed; `nextId` supplies fresh ids. -/
structure PlayerState where
  isPlaying : Bool
  playbackSpeed : ℚ
  progress : ℚ
  sourceNodeRef : Option ℕ
  startTime : ℚ
  pauseTime : ℚ
  nodes : List NodeRec
  nextId : ℕ
  deriving Repr, DecidableEq

/-- The ambient `AudioContext` at the instant a command runs: its
monotonic `currentTime`, whether its state is `suspended`, and whether a
`resume()` call would succeed. -/
structure Ctx where
  currentTime : ℚ
  suspended : Bool
  resumeSucceeds : Bool
  deriving Repr, DecidableEq

/-- Ways `playAudio` can reject: the awaited `ctx.resume()` promise
rejects (the rejection propagates out of the async function), or
`source.start(0, offset)` throws the WebIDL `TypeError` because the
computed offset is `NaN`. -/
inductive PlayErr where
  | resumeRejected
  | startTypeError
  deriving Repr, DecidableEq

/-- Truncation toward zero, the rounding JavaScript's `%` uses. -/
def jsTrunc (q : ℚ) : ℤ :=
  if 0 ≤ q then ⌊q⌋ else -⌊-q⌋

/-- JavaScript remainder `a % b`: `a - b * trunc(a / b)`; `none` models
the `NaN` result when the divisor is `0`. -/
def jsMod (a b : ℚ) : Option ℚ :=
  if b = 0 then none else some (a - b * jsTrunc (a / b))

/-- State after component mount: nothing playing, speed `1.0`, progress
`0`, no node, both time refs `0`. -/
def initState : PlayerState :=
  { isPlaying := false
    playbackSpeed := 1
    progress := 0
    sourceNodeRef := none
    startTime := 0
    pauseTime := 0
    nodes := []
    nextId := 0 }

/-- Mark the node with the given id as stopped (`node.stop()`). -/
def stopNodeId (nodes : List NodeRec) (i : ℕ) : List NodeRec :=
  nodes.map fun n => if n.id = i then { n with stopped := true } else n

/-- Set `playbackRate` of the node with the given id
(`playbackRate.setValueAtTime`). -/
def setNodeRate (nodes : List NodeRec) (i : ℕ) (v : ℚ) : List NodeRec :=
  nodes.map fun n => if n.id = i then { n with rate := v } else n

/-- The nodes that have been started and not stopped. -/
def liveNodes (s : PlayerState) : List NodeRec :=
  s.nodes.filter fun n => !n.stopped

/-- Embeds `playAudio`.  A `none` buffer returns early with no change.
If the context is suspended, `resume()` is awaited; its rejection
propagates before any node is created or state written.  Otherwise a
fresh source node is created with `playbackRate.value = playbackSpeed`,
started at `offset = pauseTimeRef.current % audioBuffer.duration`
(`NaN` when the duration is `0`, making `start` throw), and
`startTimeRef`, `sourceNodeRef`, `isPlaying` are updated. -/
def playAudio (buf : Option ℚ) (ctx : Ctx) (s : PlayerState) :
    Except PlayErr PlayerState :=
  match buf with
  | none => .ok s
  | some duration =>
    if ctx.suspended && !ctx.resumeSucceeds then .error .resumeRejected
    else
      match jsMod s.pauseTime duration with
      | none => .error .startTypeError
      | some offset =>
        let node : NodeRec :=
          { id := s.nextId
            bufDuration := duration
            rate := s.playbackSpeed
            startOffset := offset
            capturedSpeed := s.playbackSpeed
            stopped := false }
        .ok { s with
              nodes := s.nodes ++ [node]
              nextId := s.nextId + 1
              startTime := ctx.currentTime - offset / s.playbackSpeed
              sourceNodeRef := some node.id
              isPlaying := true }

/-- The component state after a `playAudio` call: a thrown rejection
leaves every hook and ref as it was. -/
def playResult (buf : Option ℚ) (ctx : Ctx) (s : PlayerState) : PlayerState :=
  match playAudio buf ctx s with
  | .ok s1 => s1
  | .error _ => s

/-- Embeds `pauseAudio`: with no live node ref it returns early;
otherwise it stores `(currentTime - startTimeRef.current) *
playbackSpeed` into `pauseTimeRef`, stops and drops the node, and clears
`isPlaying`. -/
def pauseAudio (ctx : Ctx) (s : PlayerState) : PlayerState :=
  match s.sourceNodeRef with
  | none => s
  | some i =>
    let elapsed := (ctx.currentTime - s.startTime) * s.playbackSpeed
    { s with
      pauseTime := elapsed
      nodes := stopNodeId s.nodes i
      sourceNodeRef := none
      isPlaying := false }

/-- Embeds `stopAudio`: stop and drop the node ref if present (errors
from an already-stopped node are swallowed), clear `isPlaying`. -/
def stopAudio (s : PlayerState) : PlayerState :=
  match s.sourceNodeRef with
  | none => { s with isPlaying := false }
  | some i =>
    { s with
      nodes := stopNodeId s.nodes i
      sourceNodeRef := none
      isPlaying := false }

/-- Embeds `resetAudio`: `stopAudio()` then `pauseTimeRef.current = 0`
and `setProgress(0)`. -/
def resetAudio (s : PlayerState) : PlayerState :=
  let s1 := stopAudio s
  { s1 with pauseTime := 0, progress := 0 }

/-- Embeds the `updateProgress` tick callback: it computes
`(currentTime - startTimeRef.current) * playbackSpeed` into a local that
is never used, then only re-schedules itself; no hook or ref is
written. -/
def updateProgress (ctx : Ctx) (s : PlayerState) : PlayerState :=
  let _elapsed := (ctx.currentTime - s.startTime) * s.playbackSpeed
  s

/-- Embeds the `source.onended` handler: `duration` and `capturedSpeed`
are the `audioBuffer.duration` and `playbackSpeed` values captured by
the closure when `playAudio` ran; `startTimeRef.current` is read at
fire time.  If the speed-adjusted elapsed time has reached `duration -
0.1`, playback finished naturally: clear `isPlaying`, reset
`pauseTimeRef` and `progress` to `0`; otherwise do nothing. -/
def onended (duration capturedSpeed t : ℚ) (s : PlayerState) : PlayerState :=
  if duration - 1/10 ≤ (t - s.startTime) * capturedSpeed then
    { s with isPlaying := false, pauseTime := 0, progress := 0 }
  else s

/-- Embeds `handleSpeedChange`: store the parsed value with
`setPlaybackSpeed`, and when playing with a live node ref also apply it
to the node's `playbackRate` immediately.  No validation is performed
and `startTimeRef` is not touched. -/
def handleSpeedChange (newSpeed : ℚ) (s : PlayerState) : PlayerState :=
  let s1 := { s with playbackSpeed := newSpeed }
  if s.isPlaying then
    match s.sourceNodeRef with
    | some i => { s1 with nodes := setNodeRate s1.nodes i newSpeed }
    | none => s1
  else s1

/-- The speed-adjusted elapsed time the component's formulas compute at
device time `t`: `(t - startTimeRef.current) * playbackSpeed`. -/
def elapsedAt (t : ℚ) (s : PlayerState) : ℚ :=
  (t - s.startTime) * s.playbackSpeed

/-- Modelled from the spec: the progress an observer should see while
playing, `elapsed / duration` clamped to `[0, 1]`.  Stated from the
spec's words to compare with the component's actual `progress` hook. -/
def specProgress (t duration : ℚ) (s : PlayerState) : ℚ :=
  min 1 (max 0 (elapsedAt t s / duration))

/-- Modelled from the spec: `PLAYBACK_SPEEDS` (the `constants` module is
not in the sources) — "a small enumerated set of supported multipliers
(e.g., 0.5×–2×)" that populates the speed `select`. -/
def PLAYBACK_SPEEDS : List ℚ := [1/2, 3/4, 1, 5/4, 3/2, 2]

/-- A running `AudioContext` (not suspended) observed at device time `t`. -/
def ctxAt (t : ℚ) : Ctx :=
  { currentTime := t, suspended := false, resumeSucceeds := true }

/-- The state right after `playAudio` ran on a 3-second buffer from the
fresh session at device time `0`. -/
def playedState3 : PlayerState :=
  { isPlaying := true
    playbackSpeed := 1
    progress := 0
    sourceNodeRef := some 0
    startTime := 0
    pauseTime := 0
    nodes := [{ id := 0, bufDuration := 3, rate := 1, startOffset := 0,
                capturedSpeed := 1, stopped := false }]
    nextId := 1 }

/-- One transition of the player: any of the component's handlers runs. -/
inductive Step : PlayerState → PlayerState → Prop where
  | play (buf : Option ℚ) (ctx : Ctx) {s s1 : PlayerState} :
      playAudio buf ctx s = .ok s1 → Step s s1
  | pause (ctx : Ctx) (s : PlayerState) : Step s (pauseAudio ctx s)
  | halt (s : PlayerState) : Step s (stopAudio s)
  | reset (s : PlayerState) : Step s (resetAudio s)
  | tick (ctx : Ctx) (s : PlayerState) : Step s (updateProgress ctx s)
  | ended (d sp t : ℚ) (s : PlayerState) : Step s (onended d sp t s)
  | speed (v : ℚ) (s : PlayerState) : Step s (handleSpeedChange v s)

/-- States the mounted component can actually be in. -/
inductive Reachable : PlayerState → Prop where
  | init : Reachable initState
  | step {s s1 : PlayerState} : Reachable s → Step s s1 → Reachable s1

/-! ## Basic lemmas -/

theorem jsMod_zero_divisor (a : ℚ) : jsMod a 0 = none := by
  simp [jsMod]

theorem jsMod_of_lt {a b : ℚ} (h0 : 0 ≤ a) (hab : a < b) :
    jsMod a b = some a := by
  have hb : 0 < b := lt_of_le_of_lt h0 hab
  have hq0 : 0 ≤ a / b := div_nonneg h0 hb.le
  have hq1 : a / b < 1 := (div_lt_one hb).2 hab
  have hfl : ⌊a / b⌋ = 0 := Int.floor_eq_zero_iff.2 ⟨hq0, hq1⟩
  simp [jsMod, jsTrunc, hb.ne', hq0, hfl]

theorem playAudio_ok {d : ℚ} {ctx : Ctx} {s : PlayerState} {o : ℚ}
    (hres : ctx.suspended = false ∨ ctx.resumeSucceeds = true)
    (hmod : jsMod s.pauseTime d = some o) :
    playAudio (some d) ctx s =
      .ok { s with
            nodes := s.nodes ++
              [{ id := s.nextId, bufDuration := d, rate := s.playbackSpeed,
                 startOffset := o, capturedSpeed := s.playbackSpeed,
                 stopped := false }]
            nextId := s.nextId + 1
            startTime := ctx.currentTime - o / s.playbackSpeed
            sourceNodeRef := some s.nextId
            isPlaying := true } := by
  have hcond : (ctx.suspended && !ctx.resumeSucceeds) = false := by
    rcases hres with h | h <;> simp [h]
  simp [playAudio, hcond, hmod]

/-- The state right after `playAudio` on a 5-second buffer from the fresh
session at device time 0. -/
theorem playResult_init :
    playResult (some 5) (ctxAt 0) initState =
      { isPlaying := true
        playbackSpeed := 1
        progress := 0
        sourceNodeRef := some 0
        startTime := 0
        pauseTime := 0
        nodes := [{ id := 0, bufDuration := 5, rate := 1, startOffset := 0,
                    capturedSpeed := 1, stopped := false }]
        nextId := 1 } := by
  have hpt : initState.pauseTime = 0 := rfl
  have hmod : jsMod initState.pauseTime 5 = some 0 := by
    rw [hpt]; exact jsMod_of_lt le_rfl (by norm_num)
  have h := @playAudio_ok 5 (ctxAt 0) initState 0 (Or.inl rfl) hmod
  simp only [playResult, h]
  norm_num [initState, ctxAt]

/-- Playing a second time, while the first node is still live, appends a
second live node: neither node is stopped. -/
theorem playResult_init_twice :
    playResult (some 5) (ctxAt 0) (playResult (some 5) (ctxAt 0) initState) =
      { isPlaying := true
        playbackSpeed := 1
        progress := 0
        sourceNodeRef := some 1
        startTime := 0
        pauseTime := 0
        nodes := [{ id := 0, bufDuration := 5, rate := 1, startOffset := 0,
                    capturedSpeed := 1, stopped := false },
                  { id := 1, bufDuration := 5, rate := 1, startOffset := 0,
                    capturedSpeed := 1, stopped := false }]
        nextId := 2 } := by
  rw [playResult_init]
  set s1 := playResult (some 5) (ctxAt 0) initState with hs1
  have hmod : jsMod (0 : ℚ) 5 = some 0 := jsMod_of_lt le_rfl (by norm_num)
  have h := @playAudio_ok 5 (ctxAt 0)
    { isPlaying := true
      playbackSpeed := 1
      progress := 0
      sourceNodeRef := some 0
      startTime := 0
      pauseTime := 0
      nodes := [{ id := 0, bufDuration := 5, rate := 1, startOffset := 0,
                  capturedSpeed := 1, stopped := false }]
      nextId := 1 } 0 (Or.inl rfl) hmod
  simp only [playResult, h]
  norm_num [ctxAt]

/-! ## Claim C1 — play() while already Playing -/

/-- C1 counterexample: invoking `playAudio` again while a node is live
is not a no-op — it leaves the prior node unstopped and creates a second
live node, so two nodes are live at once (the node with id `0`, started
by the first call, is among them). -/
theorem c1_counterexample :
    (liveNodes (playResult (some 5) (ctxAt 0)
        (playResult (some 5) (ctxAt 0) initState))).length = 2 ∧
    playResult (some 5) (ctxAt 0) (playResult (some 5) (ctxAt 0) initState) ≠
      playResult (some 5) (ctxAt 0) initState ∧
    ∃ n ∈ liveNodes (playResult (some 5) (ctxAt 0)
        (playResult (some 5) (ctxAt 0) initState)), n.id = 0 := by
  rw [playResult_init_twice, playResult_init]
  refine ⟨by simp [liveNodes], by simp, ?_⟩
  simp [liveNodes]

/-- C1 (amended): `playAudio` never stops a prior node.  Whenever a play
succeeds (running context, nonzero duration), every previously live node
stays live and exactly one fresh live node is appended, so calling it
while already Playing yields two live nodes rather than being a
no-op. -/
theorem c1_no_stop_before_start (s : PlayerState) (d : ℚ) (ctx : Ctx)
    (hd : d ≠ 0)
    (hres : ctx.suspended = false ∨ ctx.resumeSucceeds = true) :
    ∃ node : NodeRec, node.stopped = false ∧
      liveNodes (playResult (some d) ctx s) = liveNodes s ++ [node] ∧
      (playResult (some d) ctx s).isPlaying = true := by
  have hmod : jsMod s.pauseTime d
      = some (s.pauseTime - d * jsTrunc (s.pauseTime / d)) := by
    simp [jsMod, hd]
  have h := playAudio_ok hres hmod
  refine ⟨{ id := s.nextId, bufDuration := d, rate := s.playbackSpeed,
            startOffset := s.pauseTime - d * jsTrunc (s.pauseTime / d),
            capturedSpeed := s.playbackSpeed, stopped := false },
          rfl, ?_, ?_⟩
  · simp [playResult, h, liveNodes, List.filter_append]
  · simp [playResult, h]

/-- C1 witness: the amended statement evaluated on a state that is
already Playing with one live node. -/
theorem c1_witness :
    ∃ node : NodeRec, node.stopped = false ∧
      liveNodes (playResult (some 5) (ctxAt 0)
          (playResult (some 5) (ctxAt 0) initState)) =
        liveNodes (playResult (some 5) (ctxAt 0) initState) ++ [node] ∧
      (playResult (some 5) (ctxAt 0)
          (playResult (some 5) (ctxAt 0) initState)).isPlaying = true :=
  c1_no_stop_before_start (playResult (some 5) (ctxAt 0) initState) 5 (ctxAt 0)
    (by norm_num) (Or.inl rfl)

/-! ## Claim C2 — speed change while Playing -/

/-- C2 counterexample: after `play()` at speed `1.0` on a 5-second
buffer at device time `0` and `setSpeed(2.0)` at device time `1`,
`startTimeRef` is unchanged (not recomputed from the current elapsed
position), so at device time `2` the code's speed-adjusted elapsed time
is `(2 - 0) * 2 = 4` and the elapsed/duration ratio is `4/5 = 0.8`, not
the claimed `≈ 0.6`; the `progress` hook itself still holds `0`. -/
theorem c2_counterexample :
    (handleSpeedChange 2 (playResult (some 5) (ctxAt 0) initState)).startTime =
      (playResult (some 5) (ctxAt 0) initState).startTime ∧
    (handleSpeedChange 2 (playResult (some 5) (ctxAt 0) initState)).progress = 0 ∧
    elapsedAt 2 (handleSpeedChange 2 (playResult (some 5) (ctxAt 0) initState)) = 4 ∧
    specProgress 2 5
      (handleSpeedChange 2 (playResult (some 5) (ctxAt 0) initState)) = 4/5 ∧
    (4/5 : ℚ) ≠ 3/5 := by
  rw [playResult_init]
  refine ⟨?_, ?_, ?_, ?_, by norm_num⟩
  · simp [handleSpeedChange]
  · simp [handleSpeedChange]
  · norm_num [handleSpeedChange, elapsedAt]
  · norm_num [specProgress, elapsedAt, handleSpeedChange]

/-- C2 (amended): `handleSpeedChange` stores the new speed but does not
recompute `startTimeRef` from the current elapsed position; every
subsequent elapsed computation therefore applies the new speed to the
whole interval since the node started: `elapsed(t) = (t - startTime) *
newSpeed`. -/
theorem c2_no_clock_recompute (s : PlayerState) (v : ℚ) :
    (handleSpeedChange v s).startTime = s.startTime ∧
    (handleSpeedChange v s).playbackSpeed = v ∧
    ∀ t, elapsedAt t (handleSpeedChange v s) = (t - s.startTime) * v := by
  have h1 : (handleSpeedChange v s).startTime = s.startTime := by
    simp only [handleSpeedChange]
    split
    · split <;> simp
    · simp
  have h2 : (handleSpeedChange v s).playbackSpeed = v := by
    simp only [handleSpeedChange]
    split
    · split <;> simp
    · simp
  exact ⟨h1, h2, fun t => by rw [elapsedAt, h1, h2]⟩

/-- No handler ever writes a nonzero value into the `progress` hook:
each transition preserves `progress = 0`. -/
theorem step_preserves_progress {s s1 : PlayerState} (hstep : Step s s1)
    (h : s.progress = 0) : s1.progress = 0 := by
  cases hstep with
  | play buf ctx hok =>
    revert hok
    cases buf with
    | none =>
      intro hok
      simp only [playAudio] at hok
      injection hok with h1
      rw [← h1]; exact h
    | some d =>
      intro hok
      simp only [playAudio] at hok
      split at hok
      · exact absurd hok (by simp)
      · split at hok
        · exact absurd hok (by simp)
        · injection hok with h1
          rw [← h1]; exact h
  | pause ctx =>
    cases hsr : s.sourceNodeRef <;> simp [pauseAudio, hsr, h]
  | halt =>
    cases hsr : s.sourceNodeRef <;> simp [stopAudio, hsr, h]
  | reset =>
    simp [resetAudio]
  | tick ctx =>
    simpa [updateProgress] using h
  | ended d sp t =>
    simp only [onended]
    split <;> simp [h]
  | speed v =>
    simp only [handleSpeedChange]
    split
    · split <;> simp [h]
    · simp [h]

/-! ## Claim C3 — progress reporting -/

/-- C3 counterexample: at device time `2.5`, in the middle of playing a
5-second buffer started at time `0`, the clamped elapsed/duration ratio
the spec describes is `1/2`, but after a tick of the rendering loop the
component's `progress` hook still holds `0`: the tick recomputes
nothing. -/
theorem c3_counterexample :
    (updateProgress (ctxAt (5/2))
        (playResult (some 5) (ctxAt 0) initState)).progress = 0 ∧
    specProgress (5/2) 5 (playResult (some 5) (ctxAt 0) initState) = 1/2 ∧
    ((1/2 : ℚ) ≠ 0) := by
  rw [playResult_init]
  refine ⟨rfl, ?_, by norm_num⟩
  norm_num [specProgress, elapsedAt]

/-- C3 (amended): the per-tick callback `updateProgress` leaves the
state untouched (its computed elapsed value is discarded), and in every
reachable state the observable `progress` equals `0` — it is only ever
written as `0` (on natural completion and on reset), never as the
clamped elapsed/duration ratio. -/
theorem c3_progress_never_updated (s : PlayerState) (ctx : Ctx)
    (h : Reachable s) :
    updateProgress ctx s = s ∧ s.progress = 0 := by
  refine ⟨rfl, ?_⟩
  induction h with
  | init => rfl
  | step hr hstep ih => exact step_preserves_progress hstep ih

/-- C3 witness: the amended statement evaluated at the initial state. -/
theorem c3_witness :
    updateProgress (ctxAt 0) initState = initState ∧
    initState.progress = 0 :=
  c3_progress_never_updated initState (ctxAt 0) Reachable.init

/-! ## Claim C4 — pause/resume fidelity -/

/-- C4: on any buffer longer than 2 seconds, playing from the fresh
session at speed `1.0`, pausing after `2.0` seconds of device time
stores a retained offset of exactly `2`, and a later `playAudio` starts
its node at offset `2` (the stored value wrapped modulo the duration),
so elapsed time continues from `2` rather than from `0`. -/
theorem c4_pause_resume (d t0 t1 : ℚ) (hd : 2 < d) :
    ∃ s1 s2 s3 : PlayerState,
      playAudio (some d) (ctxAt t0) initState = .ok s1 ∧
      pauseAudio (ctxAt (t0 + 2)) s1 = s2 ∧
      s2.pauseTime = 2 ∧
      playAudio (some d) (ctxAt t1) s2 = .ok s3 ∧
      (∃ i, s3.sourceNodeRef = some i ∧
        ∃ n ∈ s3.nodes, n.id = i ∧ n.startOffset = 2) ∧
      ∀ t, elapsedAt t s3 = t - t1 + 2 := by
  have hd0 : (0 : ℚ) < d := by linarith
  have hmod1 : jsMod initState.pauseTime d = some 0 := by
    have hpt : initState.pauseTime = 0 := rfl
    rw [hpt]; exact jsMod_of_lt le_rfl hd0
  have e1 : playAudio (some d) (ctxAt t0) initState =
      .ok { isPlaying := true
            playbackSpeed := 1
            progress := 0
            sourceNodeRef := some 0
            startTime := t0
            pauseTime := 0
            nodes := [{ id := 0, bufDuration := d, rate := 1, startOffset := 0,
                        capturedSpeed := 1, stopped := false }]
            nextId := 1 } := by
    rw [playAudio_ok (Or.inl rfl) hmod1]
    norm_num [initState, ctxAt]
  have e2 : pauseAudio (ctxAt (t0 + 2))
      { isPlaying := true
        playbackSpeed := 1
        progress := 0
        sourceNodeRef := some 0
        startTime := t0
        pauseTime := 0
        nodes := [{ id := 0, bufDuration := d, rate := 1, startOffset := 0,
                    capturedSpeed := 1, stopped := false }]
        nextId := 1 } =
      { isPlaying := false
        playbackSpeed := 1
        progress := 0
        sourceNodeRef := none
        startTime := t0
        pauseTime := 2
        nodes := [{ id := 0, bufDuration := d, rate := 1, startOffset := 0,
                    capturedSpeed := 1, stopped := true }]
        nextId := 1 } := by
    simp [pauseAudio, ctxAt, stopNodeId]
  have hmod3 : jsMod (2 : ℚ) d = some 2 := jsMod_of_lt (by norm_num) hd
  have e3 : playAudio (some d) (ctxAt t1)
      { isPlaying := false
        playbackSpeed := 1
        progress := 0
        sourceNodeRef := none
        startTime := t0
        pauseTime := 2
        nodes := [{ id := 0, bufDuration := d, rate := 1, startOffset := 0,
                    capturedSpeed := 1, stopped := true }]
        nextId := 1 } =
      .ok { isPlaying := true
            playbackSpeed := 1
            progress := 0
            sourceNodeRef := some 1
            startTime := t1 - 2
            pauseTime := 2
            nodes := [{ id := 0, bufDuration := d, rate := 1, startOffset := 0,
                        capturedSpeed := 1, stopped := true },
                      { id := 1, bufDuration := d, rate := 1, startOffset := 2,
                        capturedSpeed := 1, stopped := false }]
            nextId := 2 } := by
    rw [playAudio_ok (Or.inl rfl) hmod3]
    norm_num [ctxAt]
  refine ⟨_, _, _, e1, e2, rfl, e3, ⟨1, rfl, ?_⟩, ?_⟩
  · exact ⟨{ id := 1, bufDuration := d, rate := 1, startOffset := 2,
             capturedSpeed := 1, stopped := false }, by simp, rfl, rfl⟩
  · intro t
    simp [elapsedAt]
    ring

/-- C4 witness: a 5-second buffer, play at time 0, pause at time 2,
resume at time 3. -/
theorem c4_witness :
    ∃ s1 s2 s3 : PlayerState,
      playAudio (some 5) (ctxAt 0) initState = .ok s1 ∧
      pauseAudio (ctxAt (0 + 2)) s1 = s2 ∧
      s2.pauseTime = 2 ∧
      playAudio (some 5) (ctxAt 3) s2 = .ok s3 ∧
      (∃ i, s3.sourceNodeRef = some i ∧
        ∃ n ∈ s3.nodes, n.id = i ∧ n.startOffset = 2) ∧
      ∀ t, elapsedAt t s3 = t - 3 + 2 :=
  c4_pause_resume 5 0 3 (by norm_num)

/-! ## Claim C5 — natural completion vs. manual pause -/

/-- C5: for a session freshly started on a buffer of duration `d`
(speed `1.0`, device time `t0`), the `onended` handler detects natural
completion exactly when the speed-adjusted elapsed time has reached
`d - 0.1`: at such an instant it clears `isPlaying` and resets the
retained offset and `progress` to `0`; when the node ends earlier (a
manual pause or stop), the handler changes nothing, and a manual
`pauseAudio` at elapsed time `t - t0` retains exactly that offset — so
natural completion and user pause report different resulting offsets. -/
theorem c5_completion (d t0 t : ℚ) (s1 : PlayerState)
    (hd : 0 < d)
    (hplay : playAudio (some d) (ctxAt t0) initState = .ok s1) :
    (∃ n ∈ s1.nodes, n.capturedSpeed = 1 ∧ n.bufDuration = d) ∧
    (d - 1/10 ≤ t - t0 →
      (onended d 1 t s1).isPlaying = false ∧
      (onended d 1 t s1).pauseTime = 0 ∧
      (onended d 1 t s1).progress = 0) ∧
    (t - t0 < d - 1/10 →
      onended d 1 t s1 = s1 ∧
      (pauseAudio (ctxAt t) s1).pauseTime = t - t0) := by
  have hmod1 : jsMod initState.pauseTime d = some 0 := by
    have hpt : initState.pauseTime = 0 := rfl
    rw [hpt]; exact jsMod_of_lt le_rfl hd
  rw [playAudio_ok (Or.inl rfl) hmod1] at hplay
  injection hplay with h1
  have hst : s1.startTime = t0 := by
    rw [← h1]; norm_num [initState, ctxAt]
  have hsp : s1.playbackSpeed = 1 := by rw [← h1]; rfl
  have hsr : s1.sourceNodeRef = some 0 := by rw [← h1]; rfl
  refine ⟨?_, ?_, ?_⟩
  · refine ⟨{ id := 0, bufDuration := d, rate := 1, startOffset := 0,
              capturedSpeed := 1, stopped := false }, ?_, rfl, rfl⟩
    rw [← h1]; simp [initState]
  · intro hdone
    simp only [onended]
    split
    · exact ⟨rfl, rfl, rfl⟩
    · rename_i hc
      rw [hst, mul_one] at hc
      exact absurd hdone hc
  · intro hearly
    constructor
    · simp only [onended]
      split
      · rename_i hc
        rw [hst, mul_one] at hc
        linarith
      · rfl
    · simp [pauseAudio, hsr, ctxAt, hst, hsp]

/-- C5 witness: a 3-second buffer started at device time 0.  An end at
`t = 2.95 ≥ 2.9` resets the offset to `0`; an end at `t = 2.8 < 2.9`
(a manual stop) keeps the state, and a manual pause at `t = 2` retains
offset `2`. -/
theorem c5_witness :
    (onended 3 1 (59/20) playedState3).isPlaying = false ∧
    (onended 3 1 (59/20) playedState3).pauseTime = 0 ∧
    (onended 3 1 (59/20) playedState3).progress = 0 ∧
    onended 3 1 (14/5) playedState3 = playedState3 ∧
    (pauseAudio (ctxAt 2) playedState3).pauseTime = 2 := by
  have hplay : playAudio (some 3) (ctxAt 0) initState = .ok playedState3 := by
    have hmod1 : jsMod initState.pauseTime 3 = some 0 := by
      have hpt : initState.pauseTime = 0 := rfl
      rw [hpt]; exact jsMod_of_lt le_rfl (by norm_num)
    rw [playAudio_ok (Or.inl rfl) hmod1]
    norm_num [initState, ctxAt, playedState3]
  have h1 := (c5_completion 3 0 (59/20) playedState3 (by norm_num) hplay).2.1
    (by norm_num)
  have h2 := (c5_completion 3 0 (14/5) playedState3 (by norm_num) hplay).2.2
    (by norm_num)
  have h3 := (c5_completion 3 0 2 playedState3 (by norm_num) hplay).2.2
    (by norm_num)
  exact ⟨h1.1, h1.2.1, h1.2.2, h2.1, by simpa using h3.2⟩

/-! ## Claim C6 — zero-duration buffers -/

/-- C6 counterexample: `playAudio` on a zero-duration buffer is not
rejected with an `InvalidBuffer` error before any offset arithmetic: the
modulo-duration wrap is performed (yielding the `NaN` modelled by
`none`), and the failure that results is the platform `TypeError` thrown
by `source.start` on the `NaN` offset. -/
theorem c6_counterexample :
    playAudio (some 0) (ctxAt 0) initState = .error .startTypeError ∧
    jsMod initState.pauseTime 0 = none :=
  ⟨rfl, jsMod_zero_divisor _⟩

/-- C6 (amended): the code performs no `InvalidBuffer` validation.  For
every session state, playing a zero-duration buffer proceeds to the
offset wrap `pauseTimeRef.current % duration`, which yields `NaN`, and
the call then fails with the `TypeError` from `source.start`; the
session state is left unchanged. -/
theorem c6_zero_duration (s : PlayerState) (ctx : Ctx)
    (hres : ctx.suspended = false ∨ ctx.resumeSucceeds = true) :
    playAudio (some 0) ctx s = .error .startTypeError ∧
    playResult (some 0) ctx s = s := by
  have hcond : (ctx.suspended && !ctx.resumeSucceeds) = false := by
    rcases hres with h | h <;> simp [h]
  have h1 : playAudio (some 0) ctx s = .error .startTypeError := by
    simp [playAudio, hcond, jsMod_zero_divisor]
  exact ⟨h1, by simp [playResult, h1]⟩

/-- C6 witness: the amended statement evaluated on the fresh session. -/
theorem c6_witness :
    playAudio (some 0) (ctxAt 0) initState = .error .startTypeError ∧
    playResult (some 0) (ctxAt 0) initState = initState :=
  c6_zero_duration initState (ctxAt 0) (Or.inl rfl)

/-! ## Claim C7 — unsupported speed multipliers -/

/-- C7 counterexample: `7.3` is outside the supported multiplier set,
yet `handleSpeedChange` stores it as the new speed (it does not leave
the prior speed `1` unchanged, and no `InvalidSpeed` failure occurs) and
applies it to the live node's rate. -/
theorem c7_counterexample :
    (73/10 : ℚ) ∉ PLAYBACK_SPEEDS ∧
    (handleSpeedChange (73/10) (playResult (some 5) (ctxAt 0) initState)).playbackSpeed
      = 73/10 ∧
    (playResult (some 5) (ctxAt 0) initState).playbackSpeed = 1 ∧
    ∃ n ∈ (handleSpeedChange (73/10)
            (playResult (some 5) (ctxAt 0) initState)).nodes,
      n.rate = 73/10 := by
  rw [playResult_init]
  refine ⟨by norm_num [PLAYBACK_SPEEDS], ?_, rfl, ?_⟩
  · simp [handleSpeedChange]
  · simp [handleSpeedChange, setNodeRate]

/-- C7 (amended): `handleSpeedChange` performs no validation at all: for
every multiplier, supported or not, the value is stored as the new
playback speed (there is no `InvalidSpeed` failure path), and the
playing flag is untouched.  Restriction to `PLAYBACK_SPEEDS` is enforced
only by the option list of the speed `select` element. -/
theorem c7_no_validation (v : ℚ) (s : PlayerState) :
    (handleSpeedChange v s).playbackSpeed = v ∧
    (handleSpeedChange v s).isPlaying = s.isPlaying := by
  simp only [handleSpeedChange]
  split
  · split <;> simp
  · simp

/-! ## Claim C8 — failed resume leaves state intact -/

/-- C8: when the output device is suspended and `resume()` fails, the
awaited rejection propagates out of `playAudio` before any node is
created or any hook written: the call fails, the session state is
exactly its prior value, no node is created, and `isPlaying` keeps its
prior value (so a session that was not Playing is never left Playing). -/
theorem c8_resume_failure (d : ℚ) (ctx : Ctx) (s : PlayerState)
    (hs : ctx.suspended = true) (hr : ctx.resumeSucceeds = false) :
    playAudio (some d) ctx s = .error .resumeRejected ∧
    playResult (some d) ctx s = s ∧
    (playResult (some d) ctx s).nodes = s.nodes ∧
    (playResult (some d) ctx s).isPlaying = s.isPlaying := by
  have h1 : playAudio (some d) ctx s = .error .resumeRejected := by
    simp [playAudio, hs, hr]
  have h2 : playResult (some d) ctx s = s := by
    simp [playResult, h1]
  exact ⟨h1, h2, by rw [h2], by rw [h2]⟩

/-- C8 witness: a suspended context whose resume fails, on the fresh
(stopped) session. -/
theorem c8_witness :
    playAudio (some 5) ⟨0, true, false⟩ initState = .error .resumeRejected ∧
    playResult (some 5) ⟨0, true, false⟩ initState = initState ∧
    (playResult (some 5) ⟨0, true, false⟩ initState).nodes = initState.nodes ∧
    (playResult (some 5) ⟨0, true, false⟩ initState).isPlaying
      = initState.isPlaying :=
  c8_resume_failure 5 ⟨0, true, false⟩ initState rfl rfl

/-! ## Decode lemmas -/

theorem int16Values_length : ∀ bytes : List (Fin 256),
    (int16Values bytes).length = bytes.length / 2
  | [] => rfl
  | [_] => by simp [int16Values]
  | _ :: _ :: rest => by
    simp only [int16Values, List.length_cons]
    rw [int16Values_length rest]
    omega

theorem int16Values_get : ∀ (bytes : List (Fin 256)) (i : ℕ)
    (h1 : 2*i < bytes.length) (h2 : 2*i+1 < bytes.length)
    (h3 : i < (int16Values bytes).length),
    (int16Values bytes).get ⟨i, h3⟩ =
      toInt16 (bytes.get ⟨2*i, h1⟩) (bytes.get ⟨2*i+1, h2⟩)
  | lo :: hi :: rest, 0, _, _, _ => rfl
  | lo :: hi :: rest, (i+1), h1, h2, h3 => by
    have e := int16Values_get rest i
      (by simp only [List.length_cons] at h1; omega)
      (by simp only [List.length_cons] at h2; omega)
      (by simp only [int16Values, List.length_cons] at h3; omega)
    simp only [int16Values, List.get_eq_getElem] at e ⊢
    have e1 : 2*(i+1) = 2*i+1+1 := by ring
    simp only [e1, List.getElem_cons_succ]
    simpa using e
  | [], i, h1, _, _ => absurd h1 (by simp)
  | [_], 0, _, h2, _ => absurd h2 (by simp)
  | [_], (i+1), h1, _, _ => absurd h1 (by simp)

theorem int16Values_mem : ∀ {bytes : List (Fin 256)} {v : ℤ},
    v ∈ int16Values bytes → ∃ lo hi, v = toInt16 lo hi
  | lo :: hi :: rest, v, h => by
    rcases List.mem_cons.1 h with h | h
    · exact ⟨lo, hi, h⟩
    · exact int16Values_mem h
  | [], _, h => absurd h (by simp [int16Values])
  | [_], _, h => absurd h (by simp [int16Values])

theorem toInt16_bounds (lo hi : Fin 256) :
    -32768 ≤ toInt16 lo hi ∧ toInt16 lo hi ≤ 32767 := by
  have hlo := lo.isLt
  have hhi := hi.isLt
  simp only [toInt16]
  split <;> omega

theorem sample_bounds {v : ℤ} (h1 : -32768 ≤ v) (h2 : v ≤ 32767) :
    -1 ≤ (v : ℚ)/32768 ∧ (v : ℚ)/32768 ≤ 1 := by
  have hv1 : (-32768 : ℚ) ≤ (v : ℚ) := by exact_mod_cast h1
  have hv2 : (v : ℚ) ≤ 32767 := by exact_mod_cast h2
  constructor
  · rw [le_div_iff₀ (by norm_num : (0:ℚ) < 32768)]
    linarith
  · rw [div_le_one (by norm_num : (0:ℚ) < 32768)]
    linarith

/-! ## Claim C9 — the decode interface -/

/-- C9 counterexample: the empty input decodes to `2 * 0` bytes, yet
`decodeAudioData` returns no 0-frame buffer: `ctx.createBuffer` throws
`NotSupportedError` on a zero frame count, so the claim's universal
quantification fails at `n = 0`. -/
theorem c9_counterexample :
    ([] : List (Fin 256)).length = 2 * 0 ∧
    decodeAudioData ([] : List (Fin 256)) 24000 = .error .notSupportedError :=
  ⟨rfl, rfl⟩

/-- C9 (amended): for every byte sequence of length `2 * n` with
`n ≥ 1` (little-endian signed 16-bit PCM), `decodeAudioData` succeeds
with a mono buffer of exactly `n` frames whose `i`-th sample is the
`i`-th signed 16-bit value divided by `32768.0`; every sample lies in
`[-1, 1]`, and the function is deterministic — the same input always
yields the identical buffer.  The empty input (`n = 0`) instead fails
with the `NotSupportedError` from `ctx.createBuffer`. -/
theorem c9_decode (bytes : List (Fin 256)) (r n : ℕ)
    (hlen : bytes.length = 2 * n) (hn : 0 < n) :
    ∃ buf : AudioSampleBuffer,
      decodeAudioData bytes r = .ok buf ∧
      buf.numChannels = 1 ∧
      buf.sampleRate = r ∧
      buf.samples.length = n ∧
      (∀ (i : ℕ) (h1 : 2*i < bytes.length) (h2 : 2*i+1 < bytes.length)
          (h3 : i < buf.samples.length),
        buf.samples.get ⟨i, h3⟩ =
          (toInt16 (bytes.get ⟨2*i, h1⟩) (bytes.get ⟨2*i+1, h2⟩) : ℚ) / 32768) ∧
      (∀ q ∈ buf.samples, -1 ≤ q ∧ q ≤ 1) ∧
      decodeAudioData bytes r = decodeAudioData bytes r := by
  have hpar : ¬ bytes.length % 2 = 1 := by omega
  have hfc : ¬ bytes.length / 2 = 0 := by omega
  refine ⟨{ numChannels := 1, sampleRate := r,
            samples := (int16Values bytes).map (fun v : ℤ => (v : ℚ) / 32768) },
          by simp only [decodeAudioData, if_neg hpar, if_neg hfc],
          rfl, rfl, ?_, ?_, ?_, rfl⟩
  · rw [List.length_map, int16Values_length, hlen]
    omega
  · intro i h1 h2 h3
    have h3' : i < (int16Values bytes).length := by
      simpa using h3
    have e := int16Values_get bytes i h1 h2 h3'
    simp only [List.get_eq_getElem] at e ⊢
    simp only [List.getElem_map]
    rw [e]
  · intro q hq
    rcases List.mem_map.1 hq with ⟨v, hv, rfl⟩
    rcases int16Values_mem hv with ⟨lo, hi, rfl⟩
    exact sample_bounds (toInt16_bounds lo hi).1 (toInt16_bounds lo hi).2

/-- C9 witness: the two bytes `0x34 0x12` decode to the single frame
`0x1234 / 32768`. -/
theorem c9_witness :
    [(52 : Fin 256), (18 : Fin 256)].length = 2 * 1 ∧
    (0 : ℕ) < 1 ∧
    ∃ buf : AudioSampleBuffer,
      decodeAudioData [(52 : Fin 256), (18 : Fin 256)] 24000 = .ok buf ∧
      buf.samples.length = 1 := by
  obtain ⟨buf, h1, _, _, h4, _⟩ :=
    c9_decode [(52 : Fin 256), (18 : Fin 256)] 24000 1 rfl one_pos
  exact ⟨rfl, one_pos, buf, h1, h4⟩

/-! ## Claim C10 — odd byte counts -/

/-- C10 counterexample: the empty input has an even byte count, yet it
produces no `AudioSampleBuffer`: `ctx.createBuffer` throws
`NotSupportedError` on the zero frame count, so not every even-length
input yields a buffer. -/
theorem c10_counterexample :
    Even ([] : List (Fin 256)).length ∧
    decodeAudioData ([] : List (Fin 256)) 24000 = .error .notSupportedError :=
  ⟨⟨0, rfl⟩, rfl⟩

/-- C10 (amended): for every byte sequence of odd length,
`decodeAudioData` fails with the `RangeError` of constructing an
`Int16Array` view over an odd-length buffer (no buffer with a truncated
final sample is returned); nonempty even-length inputs yield a buffer
with frame count equal to the byte count divided by 2, while the empty
input — though even — fails with the `NotSupportedError` from
`ctx.createBuffer` on a zero frame count. -/
theorem c10_parity (bytes : List (Fin 256)) (r : ℕ) :
    (Odd bytes.length → decodeAudioData bytes r = .error .rangeError) ∧
    (Even bytes.length → bytes ≠ [] →
      ∃ buf : AudioSampleBuffer, decodeAudioData bytes r = .ok buf ∧
        buf.samples.length = bytes.length / 2) ∧
    (bytes = [] → decodeAudioData bytes r = .error .notSupportedError) := by
  refine ⟨?_, ?_, ?_⟩
  · intro h
    have h1 : bytes.length % 2 = 1 := Nat.odd_iff.1 h
    simp [decodeAudioData, h1]
  · intro h hne
    have h0 : bytes.length % 2 = 0 := Nat.even_iff.1 h
    have hlen : 0 < bytes.length := List.length_pos.2 hne
    have hpar : ¬ bytes.length % 2 = 1 := by omega
    have hfc : ¬ bytes.length / 2 = 0 := by omega
    refine ⟨{ numChannels := 1, sampleRate := r,
              samples := (int16Values bytes).map (fun v : ℤ => (v : ℚ) / 32768) },
            by simp only [decodeAudioData, if_neg hpar, if_neg hfc], ?_⟩
    rw [List.length_map, int16Values_length]
  · intro h
    subst h
    rfl

/-- C10 witness: a single byte is rejected with `RangeError`; two bytes
decode to one frame; the empty input is rejected with
`NotSupportedError`. -/
theorem c10_witness :
    decodeAudioData [(7 : Fin 256)] 24000 = .error .rangeError ∧
    (∃ buf : AudioSampleBuffer,
      decodeAudioData [(52 : Fin 256), (18 : Fin 256)] 24000 = .ok buf ∧
      buf.samples.length = [(52 : Fin 256), (18 : Fin 256)].length / 2) ∧
    decodeAudioData ([] : List (Fin 256)) 24000 = .error .notSupportedError :=
  ⟨(c10_parity [(7 : Fin 256)] 24000).1 (Nat.odd_iff.2 rfl),
   (c10_parity [(52 : Fin 256), (18 : Fin 256)] 24000).2.1 (Nat.even_iff.2 rfl)
     (by simp),
   (c10_parity ([] : List (Fin 256)) 24000).2.2 rfl⟩

end DocuVoice
